import Mathlib

/-!
# ChronicleMap calendar core: a shallow embedding, verified

This file embeds the calendar-arithmetic core of ChronicleMap
(`chroniclemap/core/models.py`, `chroniclemap/temporal/engine.py`,
`chroniclemap/ui/player_viewmodel.py`) in Lean 4 and proves or refutes the
specification claims about it.

Conventions used throughout the embedding:
* Python integers are modelled by `ℤ`; Python `//` and `%` (floor division and
  the matching nonnegative-for-positive-divisor remainder) are modelled by
  `Int.fdiv` / `Int.fmod`, which have exactly Python's semantics.
* Python floats flowing through the playback engine are modelled by `ℚ`
  (exact arithmetic; floating-point rounding error is outside the model).
* Python `datetime.datetime` values are modelled by a rational number of days
  since 1970-01-01 in the proleptic Gregorian calendar: the integer part
  (floor) is the `datetime.date` part, the fractional part is the time of day.
  `datetime`'s year range 1..9999 and microsecond quantization are outside
  the model.
* Raising an exception is modelled by returning `Except.error`; in the pure
  embedding a raised exception leaves every data structure unchanged, which
  models Python raising before mutating.
* Python strings are modelled by `List Char`.
-/

/- ----------------------------------------------------------------------------
`chroniclemap/core/models.py` — ordinal conversion and `GameDate`
---------------------------------------------------------------------------- -/

/-- `_GREGORIAN_MONTH_LENGTHS = [31, 28, 31, 30, 31, 30, 31, 31, 30, 31, 30, 31]` -/
def GREGORIAN_MONTH_LENGTHS : List Int := [31, 28, 31, 30, 31, 30, 31, 31, 30, 31, 30, 31]

/-- `days_from_civil(y, m, d)` from `models.py`: Hinnant's proleptic-Gregorian
civil-date → day-count conversion, preceded by the historical→astronomical
year shift (`if y < 0: y = y + 1`).  All Python `//` are by positive
constants, written `Int.fdiv` (Python floor division). -/
def days_from_civil (y m d : Int) : Int :=
  let y1 := if y < 0 then y + 1 else y
  let y0 := y1 - (if m ≤ 2 then 1 else 0)
  let era := Int.fdiv y0 400
  let yoe := y0 - era * 400
  let mp := if 2 < m then m - 3 else m + 9
  let doy := Int.fdiv (153 * mp + 2) 5 + d - 1
  let doe := yoe * 365 + Int.fdiv yoe 4 - Int.fdiv yoe 100 + doy
  era * 146097 + doe - 719468

/-- `civil_from_days(z)` from `models.py`: day count → `(year, month, day)`,
followed by the astronomical→historical year shift (`if y < 1: y = y - 1`). -/
def civil_from_days (z : Int) : Int × Int × Int :=
  let z2 := z + 719468
  let era := Int.fdiv z2 146097
  let doe := z2 - era * 146097
  let yoe := Int.fdiv (doe - Int.fdiv doe 1460 + Int.fdiv doe 36524 - Int.fdiv doe 146096) 365
  let y := yoe + era * 400
  let doy := doe - (365 * yoe + Int.fdiv yoe 4 - Int.fdiv yoe 100)
  let mp := Int.fdiv (5 * doy + 2) 153
  let d := doy - Int.fdiv (153 * mp + 2) 5 + 1
  let m := if mp < 10 then mp + 3 else mp - 9
  let y2 := y + (if m ≤ 2 then 1 else 0)
  (if y2 < 1 then y2 - 1 else y2, m, d)

/-- `is_gregorian_leap(year)` from `models.py` (historical year numbering;
shifts negative years by one before the astronomical leap test).  Python `%`
on a positive modulus is `Int.fmod`. -/
def is_gregorian_leap (year : Int) : Bool :=
  let y := if year < 0 then year + 1 else year
  if Int.fmod y 4 ≠ 0 then false
  else if Int.fmod y 100 ≠ 0 then true
  else if Int.fmod y 400 = 0 then true
  else false

/-- The cumulative-sum list built by `cum = [0]; for ml in L: cum.append(cum[-1] + ml)`
(used both by `day_of_year_no_leap` in `models.py` and by the module-level
`_NO_LEAP_CUMULATIVE` in `engine.py`). -/
def cumFrom (acc : Int) : List Int → List Int
  | [] => [acc]
  | ml :: rest => acc :: cumFrom (acc + ml) rest

/-- `day_of_year_no_leap(year, month, day)` from `models.py`: 1-based
day-of-year with February always 28 days (`cum[month-1] + day`; the year
argument is unused, as in the source). -/
def day_of_year_no_leap (_year month day : Int) : Int :=
  (cumFrom 0 GREGORIAN_MONTH_LENGTHS).getD (month - 1).toNat 0 + day

/-- The `GameDate` dataclass fields (`year`, `month`, `day`, all Python ints). -/
structure GameDate where
  year : Int
  month : Int
  day : Int
deriving DecidableEq, Repr

/-- `max_day` computed by `GameDate.__post_init__`:
`_GREGORIAN_MONTH_LENGTHS[month - 1]`, bumped to 29 for February of a leap
year. -/
def gameDateMaxDay (year month : Int) : Int :=
  let base := GREGORIAN_MONTH_LENGTHS.getD (month - 1).toNat 0
  if month = 2 ∧ is_gregorian_leap year then 29 else base

/-- The validation performed by `GameDate.__post_init__`: construction succeeds
iff the month is 1..12 and the day is 1..`max_day`.  Note there is no
constraint on the year. -/
def ValidGameDate (g : GameDate) : Prop :=
  1 ≤ g.month ∧ g.month ≤ 12 ∧ 1 ≤ g.day ∧ g.day ≤ gameDateMaxDay g.year g.month

instance (g : GameDate) : Decidable (ValidGameDate g) := by
  unfold ValidGameDate; infer_instance

/-- The month-resolving loop of `GameDate.from_ordinal` (and of
`ordinal_to_date_no_leap` in `engine.py`, which is textually identical):
`month = 1; for i in range(1, 13): if doy <= cum[i]: month = i; break`. -/
def monthScanLoop (cum : List Int) (doy : Int) : Nat → Nat → Int
  | _, 0 => 1
  | i, fuel + 1 => if doy ≤ cum.getD i 0 then (i : Int) else monthScanLoop cum doy (i + 1) fuel

/-- `GameDate.to_ordinal(ignore_leap)` from `models.py`. -/
def GameDate.to_ordinal (g : GameDate) (ignore_leap : Bool) : Int :=
  if !ignore_leap then days_from_civil g.year g.month g.day
  else
    let doy := day_of_year_no_leap g.year g.month g.day
    if 0 < g.year then (g.year - 1) * 365 + (doy - 1) else g.year * 365 + (doy - 1)

/-- `GameDate.from_ordinal(ordinal, ignore_leap)` from `models.py`. -/
def GameDate.from_ordinal (ordinal : Int) (ignore_leap : Bool) : GameDate :=
  if !ignore_leap then
    let ymd := civil_from_days ordinal
    ⟨ymd.1, ymd.2.1, ymd.2.2⟩
  else
    let year := if 0 ≤ ordinal then Int.fdiv ordinal 365 + 1
      else -(Int.fdiv (-ordinal - 1) 365 + 1)
    let doy := if 0 ≤ ordinal then Int.fmod ordinal 365 + 1
      else 365 - Int.fmod (-ordinal - 1) 365
    let cum := cumFrom 0 GREGORIAN_MONTH_LENGTHS
    let month := monthScanLoop cum doy 1 12
    let day := doy - cum.getD (month - 1).toNat 0
    ⟨year, month, day⟩

/-- `GameDate.add_days(days, ignore_leap)`. -/
def GameDate.add_days (g : GameDate) (days : Int) (ignore_leap : Bool) : GameDate :=
  GameDate.from_ordinal (g.to_ordinal ignore_leap + days) ignore_leap

/-- `GameDate.days_until(other, ignore_leap)`. -/
def GameDate.days_until (g other : GameDate) (ignore_leap : Bool) : Int :=
  other.to_ordinal ignore_leap - g.to_ordinal ignore_leap

/- ----------------------------------------------------------------------------
`chroniclemap/temporal/engine.py` — no-leap ordinals and the playback engine
---------------------------------------------------------------------------- -/

/-- `_NO_LEAP_MONTH_LENGTHS` from `engine.py` (its own copy of the table). -/
def NO_LEAP_MONTH_LENGTHS : List Int := [31, 28, 31, 30, 31, 30, 31, 31, 30, 31, 30, 31]

/-- `_NO_LEAP_CUMULATIVE` from `engine.py`, built by the same append loop as
`cum` in `models.py`. -/
def NO_LEAP_CUMULATIVE : List Int := cumFrom 0 NO_LEAP_MONTH_LENGTHS

/-- `date_to_no_leap_ordinal(d)` from `engine.py`.  Its argument is a Python
`datetime.date`, modelled by the same `(year, month, day)` triple as
`GameDate`. -/
def date_to_no_leap_ordinal (d : GameDate) : Int :=
  let day_of_year := NO_LEAP_CUMULATIVE.getD (d.month - 1).toNat 0 + d.day
  (d.year - 1) * 365 + (day_of_year - 1)

/-- `ordinal_to_date_no_leap(ordinal)` from `engine.py` (Python `//` and `%`
are floor division and its remainder, i.e. `Int.fdiv` / `Int.fmod`). -/
def ordinal_to_date_no_leap (ordinal : Int) : GameDate :=
  let year := Int.fdiv ordinal 365 + 1
  let day_of_year := Int.fmod ordinal 365 + 1
  let month := monthScanLoop NO_LEAP_CUMULATIVE day_of_year 1 12
  let day := day_of_year - NO_LEAP_CUMULATIVE.getD (month - 1).toNat 0
  ⟨year, month, day⟩

/-- The `campaign.config.playback_speed` dict `{"units": ..., "value": ...}`;
`value` is a Python float, modelled exactly as a rational. -/
structure PlaybackSpeed where
  units : String
  value : ℚ
deriving DecidableEq

/-- The mutable state of `TemporalEngine` relevant to the temporal claims:
`campaign.config.playback_speed`, `current_datetime`, `playing` and
`ignore_leap_years`.  `current_datetime` is the modelled `datetime` (days
since 1970-01-01, real calendar; the date part is its floor). -/
structure TemporalEngineState where
  playback_speed : PlaybackSpeed
  current_datetime : ℚ
  playing : Bool
  ignore_leap_years : Bool
deriving DecidableEq

/-- Floor of a rational (`Rat.den` is always positive, so flooring is floor
division of the numerator by the denominator).  Used to extract the
`datetime.date` part of a modelled `datetime`. -/
def ratFloor (x : ℚ) : Int := Int.fdiv x.num x.den

/-- `TemporalEngine.get_current_date()`: the `date` part of
`current_datetime`, converted to a `(year, month, day)` triple via the real
calendar. -/
def get_current_date (s : TemporalEngineState) : GameDate :=
  let ymd := civil_from_days (ratFloor s.current_datetime)
  ⟨ymd.1, ymd.2.1, ymd.2.2⟩

/-- Python's built-in `round()`: round half to even. -/
def roundHalfEven (x : ℚ) : Int :=
  let f := ratFloor x
  let r := x - (f : ℚ)
  if r < 1/2 then f
  else if 1/2 < r then f + 1
  else if Int.fmod f 2 = 0 then f else f + 1

/-- The error message of the `NotImplementedError` raised by
`TemporalEngine.tick` for any playback unit other than `"days_per_second"`. -/
def tickUnitError : String := "Only 'days_per_second' playback unit is implemented"

/-- `TemporalEngine.tick(dt_seconds)` from `engine.py`:

* reads `units`/`value` from the playback-speed record (the fields are always
  present in the model);
* raises `NotImplementedError` unless `units == "days_per_second"`;
* `days_advance = value * dt_seconds`;
* if `ignore_leap_years`: converts the current *date* to a no-leap ordinal,
  adds `days_advance`, rounds half-to-even (`int(round(...))`), converts back
  and stores the result as a midnight `datetime`;
* otherwise adds `timedelta(days=days_advance)` to `current_datetime`
  (sub-day precision is kept; no rounding). -/
def TemporalEngineState.tick (s : TemporalEngineState) (dt_seconds : ℚ) :
    Except String TemporalEngineState :=
  let units := s.playback_speed.units
  let value := s.playback_speed.value
  if units ≠ "days_per_second" then .error tickUnitError
  else
    let days_advance := value * dt_seconds
    if s.ignore_leap_years then
      let cur_date := get_current_date s
      let cur_ord := date_to_no_leap_ordinal cur_date
      let new_ord := roundHalfEven ((cur_ord : ℚ) + days_advance)
      let new_date := ordinal_to_date_no_leap new_ord
      .ok { s with current_datetime :=
              (days_from_civil new_date.year new_date.month new_date.day : ℚ) }
    else
      .ok { s with current_datetime := s.current_datetime + days_advance }

/-- `PlayerViewModel.tick(dt_seconds)` from `ui/player_viewmodel.py`: a no-op
unless the engine is playing, otherwise delegates to `TemporalEngine.tick`
(signal emission is presentation-layer and outside the model). -/
def playerViewModelTick (s : TemporalEngineState) (dt_seconds : ℚ) :
    Except String TemporalEngineState :=
  if !s.playing then .ok s else s.tick dt_seconds

/-- A concrete engine state with the months-per-second unit of the spec's
`PlaybackSpeed` (what `set_playback_speed("months_per_second", 1.0)` leaves
behind). -/
def monthsSpeedState : TemporalEngineState :=
  { playback_speed := { units := "months_per_second", value := 1 }
    current_datetime := ((days_from_civil 2000 1 1 : Int) : ℚ)
    playing := true
    ignore_leap_years := true }

/-- A concrete paused engine state: `days_per_second` at 1.0, no-leap mode,
current date 2000-01-01 (the configuration of
`test_engine_tick_ignore_leap_years`, which ticks without ever playing). -/
def daysNoLeapPausedState : TemporalEngineState :=
  { playback_speed := { units := "days_per_second", value := 1 }
    current_datetime := ((days_from_civil 2000 1 1 : Int) : ℚ)
    playing := false
    ignore_leap_years := true }

/-- The same engine state in the Playing state. -/
def daysNoLeapPlayingState : TemporalEngineState :=
  { playback_speed := { units := "days_per_second", value := 1 }
    current_datetime := ((days_from_civil 2000 1 1 : Int) : ℚ)
    playing := true
    ignore_leap_years := true }

/-- A playing engine state in real-calendar mode (`ignore_leap_years=False`),
`days_per_second` at 1.0, current date 2000-01-01. -/
def daysRealPlayingState : TemporalEngineState :=
  { playback_speed := { units := "days_per_second", value := 1 }
    current_datetime := ((days_from_civil 2000 1 1 : Int) : ℚ)
    playing := true
    ignore_leap_years := false }

/- ----------------------------------------------------------------------------
`Campaign.add_snapshot` from `models.py`
---------------------------------------------------------------------------- -/

/-- The `Snapshot` dataclass, restricted to the fields `add_snapshot` and the
sorting invariant read (`id` and `date`); `path`, `thumbnail`, `align`,
`ocr_extracted` and `extra` are opaque payload that no modelled operation
examines. -/
structure Snapshot where
  id : String
  date : GameDate
deriving DecidableEq

/-- The `Campaign` aggregate, restricted to its snapshot list (the other
fields do not participate in `add_snapshot`). -/
structure Campaign where
  snapshots : List Snapshot
deriving DecidableEq

/-- The sort key of `Campaign.add_snapshot`'s re-sort:
`s.date.to_ordinal(ignore_leap=False)`, compared with `≤` (Python's stable
`list.sort(key=...)` is modelled by the stable `List.mergeSort`). -/
def snapshotLe (a b : Snapshot) : Bool :=
  a.date.to_ordinal false ≤ b.date.to_ordinal false

/-- `Campaign.add_snapshot(snapshot)`: raises `ValueError` if a snapshot with
the same `id` is already present (before any mutation), otherwise appends and
re-sorts by Real-calendar ordinal ascending. -/
def Campaign.add_snapshot (c : Campaign) (s : Snapshot) : Except String Campaign :=
  if c.snapshots.any (fun t => t.id == s.id) then
    .error ("Snapshot with id " ++ s.id ++ " already exists")
  else
    .ok { c with snapshots := (c.snapshots ++ [s]).mergeSort snapshotLe }

/- ----------------------------------------------------------------------------
`GameDate.to_iso` / `GameDate.fromiso` from `models.py`
---------------------------------------------------------------------------- -/

/-- The decimal digit character for `n < 10` (`'0'` has code 48). -/
def digitChar (n : Nat) : Char := Char.ofNat (48 + n)

/-- Big-endian decimal digit characters of `n` (fuel-based; `natStr` passes
`n` itself as fuel, which always suffices). -/
def natDigitsAux : Nat → Nat → List Char
  | 0, _ => []
  | fuel + 1, n => if n = 0 then [] else natDigitsAux fuel (n / 10) ++ [digitChar (n % 10)]

/-- Python's decimal rendering of a nonnegative integer (`str(n)` / `f"{n:d}"`). -/
def natStr (n : Nat) : List Char := if n = 0 then ['0'] else natDigitsAux n n

/-- Zero left-padding to width `w`, as in `f"{n:04d}"` / `f"{n:02d}"` for
nonnegative `n`. -/
def padZeros (w : Nat) (s : List Char) : List Char :=
  List.replicate (w - s.length) '0' ++ s

/-- `GameDate.to_iso()`: `[sign]YYYY-MM-DD`, the year zero-padded to 4 digits
when `abs(year) <= 9999` and printed at full width otherwise.  (Month and day
of a validated date are in 1..31, so their `02d` format is two digits.) -/
def GameDate.to_iso (g : GameDate) : List Char :=
  let sign : List Char := if g.year < 0 then ['-'] else []
  let yy := g.year.natAbs
  let ypad := if yy ≤ 9999 then padZeros 4 (natStr yy) else natStr yy
  sign ++ ypad ++ ['-'] ++ padZeros 2 (natStr g.month.toNat) ++
    ['-'] ++ padZeros 2 (natStr g.day.toNat)

/-- Numeric value of a run of digit characters, accumulated left to right
(the value `int()` gives the digit substring captured by the regex). -/
def digitsVal (ds : List Char) : Nat :=
  ds.foldl (fun acc c => acc * 10 + (c.toNat - 48)) 0

/-- Month separators of `DATE_PARSE_REGEX`: the characters `.`, `-`, `/`, `年`. -/
def isSep1 (c : Char) : Bool := c == '.' || c == '-' || c == '/' || c == '年'

/-- Day separators of `DATE_PARSE_REGEX`: the characters `.`, `-`, `/`, `月`. -/
def isSep2 (c : Char) : Bool := c == '.' || c == '-' || c == '/' || c == '月'

/-- Matches `\s*$`: only whitespace remains. -/
def onlyWhitespace (r : List Char) : Bool := r.dropWhile Char.isWhitespace |>.isEmpty

/-- Matches `(\d{1,2})?\s*$` after a day separator: one or two day digits
(greedy, as the regex backtracks from two to one) followed by `\s*$`. -/
def parseDayDigits : List Char → Option (List Char)
  | d1 :: d2 :: r =>
    if d1.isDigit && d2.isDigit && onlyWhitespace r then some [d1, d2]
    else if d1.isDigit && onlyWhitespace (d2 :: r) then some [d1]
    else none
  | [d1] => if d1.isDigit then some [d1] else none
  | [] => none

/-- Matches `(?:SEP2(\d{1,2}))?\s*$` (`SEP2` the day separator class): either nothing but whitespace (the
optional day group is empty) or a day separator followed by day digits. -/
def parseDayPart (r : List Char) : Option (Option (List Char)) :=
  match r with
  | c :: t =>
    if isSep2 c then
      match parseDayDigits t with
      | some ds => some (some ds)
      | none => none
    else if onlyWhitespace r then some none else none
  | [] => some none

/-- Matches `(\d{1,2})(?:SEP2(\d{1,2}))?\s*$` after a month separator, in
the regex's backtracking order: two month digits first, one as fallback. -/
def parseMonthDay (t : List Char) : Option (List Char × Option (List Char)) :=
  match t with
  | d1 :: d2 :: r2 =>
    if d1.isDigit && d2.isDigit then
      match parseDayPart r2 with
      | some dy => some ([d1, d2], dy)
      | none =>
        if d1.isDigit then
          match parseDayPart (d2 :: r2) with
          | some dy => some ([d1], dy)
          | none => none
        else none
    else if d1.isDigit then
      match parseDayPart (d2 :: r2) with
      | some dy => some ([d1], dy)
      | none => none
    else none
  | [d1] =>
    if d1.isDigit then
      match parseDayPart [] with
      | some dy => some ([d1], dy)
      | none => none
    else none
  | [] => none

/-- Matches `(?:SEP1(\d{1,2})...)?\s*$` (`SEP1` the month separator class) after the year digits: either the
optional month/day group or nothing but whitespace.  (When the group's
leading separator is present but the group fails, the regex cannot fall back
to the empty group, because `\s*$` cannot match a string starting with a
separator.) -/
def parseAfterYear (r : List Char) : Option (Option (List Char) × Option (List Char)) :=
  match r with
  | c :: t =>
    if isSep1 c then
      match parseMonthDay t with
      | some (mo, dy) => some (some mo, dy)
      | none => none
    else if onlyWhitespace r then some (none, none) else none
  | [] => some (none, none)

/-- The backtracking of `([+-]?\d{1,5})`: try `k` year digits for
`k = 5, 4, ..., 1` (the digit run's prefix), accepting the first length for
which the rest of the pattern matches. -/
def tryYearSplit (run rest : List Char) :
    Nat → Option (List Char × (Option (List Char) × Option (List Char)))
  | 0 => none
  | k + 1 =>
    if k + 1 ≤ run.length then
      match parseAfterYear (run.drop (k + 1) ++ rest) with
      | some md => some (run.take (k + 1), md)
      | none => tryYearSplit run rest k
    else tryYearSplit run rest k

/-- Validated construction: `GameDate(year, month, day)` raises unless
`__post_init__` accepts. -/
def mkGameDate (y m d : Int) : Option GameDate :=
  if ValidGameDate ⟨y, m, d⟩ then some ⟨y, m, d⟩ else none

/-- The fallback `re.fullmatch(r"([+-]?\d{1,5})(\d{2})(\d{2})$", text)` of
`GameDate.fromiso`: after an optional sign, a pure digit run of length
`4 + k` with `1 ≤ k ≤ 5`; the last four digits are `MMDD`. -/
def compactYmd (sign : Int) (run rest : List Char) : Option GameDate :=
  if rest.isEmpty && 5 ≤ run.length && run.length ≤ 9 then
    let k := run.length - 4
    let y := sign * (digitsVal (run.take k) : Int)
    let mo := (digitsVal ((run.drop k).take 2) : Int)
    let da := (digitsVal (run.drop (k + 2)) : Int)
    mkGameDate y mo da
  else none

/-- The optional sign of `([+-]?...)`: the signed value multiplier and the
remaining text. -/
def parseSign (text : List Char) : Int × List Char :=
  if text.head? = some '+' then (1, text.tail)
  else if text.head? = some '-' then (-1, text.tail)
  else (1, text)

/-- The body of `DATE_PARSE_REGEX` after the sign, plus the `YYYYMMDD`
fallback: year digits with backtracking, then the optional month/day groups
(missing parts default to 1), then `int()` conversion and validated
construction. -/
def regexParse (sign : Int) (body : List Char) : Option GameDate :=
  let run := body.takeWhile Char.isDigit
  let rest := body.dropWhile Char.isDigit
  match tryYearSplit run rest 5 with
  | some (yds, (mo?, da?)) =>
    let y := sign * (digitsVal yds : Int)
    let mo : Int := match mo? with | some ds => (digitsVal ds : Int) | none => 1
    let da : Int := match da? with | some ds => (digitsVal ds : Int) | none => 1
    mkGameDate y mo da
  | none => compactYmd sign run rest

/-- `GameDate.fromiso(s)` for a string argument: strip, fail on empty, match
`DATE_PARSE_REGEX` (missing month/day default to 1), fall back to the compact
`YYYYMMDD` form, then construct (validation errors propagate as failure).
(The `GameDate`/tuple/int fast paths of `fromiso` take no parsing and are
outside this model.) -/
def fromiso (s : List Char) : Option GameDate :=
  let text := (s.dropWhile Char.isWhitespace).reverse.dropWhile Char.isWhitespace |>.reverse
  if text.isEmpty then none
  else regexParse (parseSign text).1 (parseSign text).2

/- ----------------------------------------------------------------------------
Proof infrastructure: the components of Hinnant's algorithm, named.

`days_from_civil` / `civil_from_days` first shift historical years to
astronomical years.  The helpers below are the astronomical-level components
of the two source functions (with Python's `//` written as `/`, Lean's
Euclidean division, which agrees with floor division for the positive
divisors used here); lemmas prove the source functions equal to them.
---------------------------------------------------------------------------- -/

/-- The borrow of the March-based year: `1 if m <= 2 else 0`. -/
def shiftB (m : Int) : Int := if m ≤ 2 then 1 else 0

/-- `mp = m - 3 if m > 2 else m + 9`: March-based month index (0..11). -/
def mpOf (m : Int) : Int := if 2 < m then m - 3 else m + 9

/-- `doy = (153 * mp + 2) // 5 + d - 1`: March-based day of year (0-based). -/
def doyOf (m d : Int) : Int := (153 * mpOf m + 2) / 5 + d - 1

/-- `era = y0 // 400` of the forward conversion (astronomical year `ya`). -/
def eraOf (ya m : Int) : Int := (ya - shiftB m) / 400

/-- `yoe = y0 - era * 400` of the forward conversion. -/
def yoeOf (ya m : Int) : Int := (ya - shiftB m) - eraOf ya m * 400

/-- `doe = yoe * 365 + yoe // 4 - yoe // 100 + doy`: day of era (0-based). -/
def doeOf (ya m d : Int) : Int :=
  yoeOf ya m * 365 + yoeOf ya m / 4 - yoeOf ya m / 100 + doyOf m d

/-- `days_from_civil` without the historical→astronomical shift. -/
def dfcAstro (ya m d : Int) : Int := eraOf ya m * 146097 + doeOf ya m d - 719468

/-- `era = z2 // 146097` of the inverse conversion. -/
def cfdEra (z : Int) : Int := (z + 719468) / 146097

/-- `doe = z2 - era * 146097` of the inverse conversion. -/
def cfdDoe (z : Int) : Int := (z + 719468) - cfdEra z * 146097

/-- `yoe = (doe - doe//1460 + doe//36524 - doe//146096) // 365` of the inverse. -/
def cfdYoe (z : Int) : Int :=
  (cfdDoe z - cfdDoe z / 1460 + cfdDoe z / 36524 - cfdDoe z / 146096) / 365

/-- `doy = doe - (365*yoe + yoe//4 - yoe//100)` of the inverse. -/
def cfdDoy (z : Int) : Int :=
  cfdDoe z - (365 * cfdYoe z + cfdYoe z / 4 - cfdYoe z / 100)

/-- `mp = (5*doy + 2) // 153` of the inverse. -/
def cfdMp (z : Int) : Int := (5 * cfdDoy z + 2) / 153

/-- `d = doy - (153*mp + 2)//5 + 1` of the inverse. -/
def cfdD (z : Int) : Int := cfdDoy z - (153 * cfdMp z + 2) / 5 + 1

/-- `m = mp + 3 if mp < 10 else mp - 9` of the inverse. -/
def cfdM (z : Int) : Int := if cfdMp z < 10 then cfdMp z + 3 else cfdMp z - 9

/-- The astronomical year produced by the inverse (before the
astronomical→historical shift). -/
def cfdY (z : Int) : Int := (cfdYoe z + cfdEra z * 400) + (if cfdM z ≤ 2 then 1 else 0)

/-- The astronomical leap-year test (`is_gregorian_leap` after its year
shift). -/
def leapAstro (ya : Int) : Bool :=
  if ya % 4 ≠ 0 then false
  else if ya % 100 ≠ 0 then true
  else if ya % 400 = 0 then true
  else false

/-- `gameDateMaxDay` at the astronomical level. -/
def astroMaxDay (ya m : Int) : Int :=
  if m = 2 ∧ leapAstro ya then 29 else GREGORIAN_MONTH_LENGTHS.getD (m - 1).toNat 0

/-- Days before year-of-era `yoe` within a 400-year era (`Nat` level, for the
finite checks). -/
def yearStartN (yoe : Nat) : Nat := 365 * yoe + yoe / 4 - yoe / 100

/-- Numerator of Hinnant's year-of-era recovery formula. -/
def yoeNumN (doe : Nat) : Nat := doe - doe / 1460 + doe / 36524 - doe / 146096

/-- Number of days in year-of-era `yoe` (366 for the era-final leap year
`yoe = 399`). -/
def ndaysN (yoe : Nat) : Nat :=
  yearStartN (yoe + 1) - yearStartN yoe + (if yoe = 399 then 1 else 0)

/-- Offset of March-based month `mp` into the (shifted) year: `(153*mp+2)/5`. -/
def mpStartN (mp : Nat) : Nat := (153 * mp + 2) / 5

/-- Length of March-based month `mp` (February, `mp = 11`, gets its leap-year
maximum of 29). -/
def mpLenN (mp : Nat) : Nat :=
  [31, 30, 31, 30, 31, 31, 30, 31, 30, 31, 31, 29].getD mp 0

/-- The per-era endpoint check backing the band lemma: at both ends of the
days-of-era band of each year-of-era, Hinnant's recovery numerator lies in
`[365*yoe, 365*yoe + 364]`. -/
def endpointsOkN (yoe : Nat) : Bool :=
  decide (365 * yoe ≤ yoeNumN (yearStartN yoe) ∧
          yoeNumN (yearStartN yoe + ndaysN yoe - 1) ≤ 365 * yoe + 364)

/- ----------------------------------------------------------------------------
Theorems.  First: the finite/monotonicity core of Hinnant's inverse.
---------------------------------------------------------------------------- -/

theorem yoeNumN_mono_step (d : Nat) : yoeNumN d ≤ yoeNumN (d + 1) := by
  unfold yoeNumN
  omega

theorem yoeNumN_mono {a b : Nat} (h : a ≤ b) : yoeNumN a ≤ yoeNumN b := by
  induction b with
  | zero => simp_all
  | succ n ih =>
    rcases Nat.lt_succ_iff_lt_or_eq.mp (Nat.lt_succ_of_le h) with h2 | h2
    · exact le_trans (ih (by omega)) (yoeNumN_mono_step n)
    · subst h2; exact le_refl _

set_option maxRecDepth 4000 in
set_option maxHeartbeats 1000000 in
theorem endpointsOkN_all : ∀ yoe < 400, endpointsOkN yoe = true := by decide

/-- The band lemma: for every day inside the days-of-era band of year-of-era
`yoe`, Hinnant's formula recovers `yoe`. -/
theorem yoe_band (yoe doy : Nat) (h1 : yoe < 400) (h2 : doy < ndaysN yoe) :
    yoeNumN (yearStartN yoe + doy) / 365 = yoe := by
  have he := endpointsOkN_all yoe h1
  rw [endpointsOkN, decide_eq_true_eq] at he
  have hlo : yoeNumN (yearStartN yoe) ≤ yoeNumN (yearStartN yoe + doy) :=
    yoeNumN_mono (by omega)
  have hhi : yoeNumN (yearStartN yoe + doy) ≤ yoeNumN (yearStartN yoe + ndaysN yoe - 1) :=
    yoeNumN_mono (by omega)
  omega

theorem ndaysN_ge (yoe : Nat) : 365 ≤ ndaysN yoe := by
  unfold ndaysN yearStartN
  split <;> omega

set_option maxRecDepth 4000 in
theorem ndaysN_leap : ∀ yoe < 400,
    (yoe + 1) % 4 = 0 → ((yoe + 1) % 100 ≠ 0 ∨ (yoe + 1) % 400 = 0) →
    ndaysN yoe = 366 := by decide

set_option maxRecDepth 4000 in
theorem yearStartN_ndaysN_le : ∀ yoe < 400, yearStartN yoe + ndaysN yoe ≤ 146097 := by
  decide

set_option maxRecDepth 4000 in
theorem mp_recover : ∀ mp < 12, ∀ dd < mpLenN mp,
    (5 * (mpStartN mp + dd) + 2) / 153 = mp := by decide

set_option maxRecDepth 4000 in
theorem doy_max : ∀ mp < 12, ∀ dd < mpLenN mp,
    mpStartN mp + dd ≤ 364 ∨ (mp = 11 ∧ dd = 28 ∧ mpStartN mp + dd = 365) := by decide

/-- `Int`-level band lemma, phrased against the inverse's numerator shape. -/
theorem yoe_band_int (yoe doy X : Int)
    (hX : X = yoe * 365 + yoe / 4 - yoe / 100 + doy)
    (h0 : 0 ≤ yoe) (h1 : yoe < 400) (h2 : 0 ≤ doy) (h3 : doy < (ndaysN yoe.toNat : Int)) :
    (X - X / 1460 + X / 36524 - X / 146096) / 365 = yoe := by
  obtain ⟨yn, rfl⟩ : ∃ n : Nat, yoe = (n : Int) := ⟨yoe.toNat, by omega⟩
  obtain ⟨dn, rfl⟩ : ∃ n : Nat, doy = (n : Int) := ⟨doy.toNat, by omega⟩
  have hband := yoe_band yn dn (by omega) (by simpa using h3)
  unfold yoeNumN yearStartN at hband
  obtain ⟨XN, rfl⟩ : ∃ n : Nat, X = (n : Int) := ⟨X.toNat, by omega⟩
  have hXN : XN = 365 * yn + yn / 4 - yn / 100 + dn := by omega
  subst hXN
  have hstep : ((365 * yn + yn / 4 - yn / 100 + dn : Nat) : Int) -
      ((365 * yn + yn / 4 - yn / 100 + dn : Nat) : Int) / 1460 +
      ((365 * yn + yn / 4 - yn / 100 + dn : Nat) : Int) / 36524 -
      ((365 * yn + yn / 4 - yn / 100 + dn : Nat) : Int) / 146096 =
      (((365 * yn + yn / 4 - yn / 100 + dn) - (365 * yn + yn / 4 - yn / 100 + dn) / 1460 +
        (365 * yn + yn / 4 - yn / 100 + dn) / 36524 -
        (365 * yn + yn / 4 - yn / 100 + dn) / 146096 : Nat) : Int) := by
    omega
  rw [hstep]
  omega

/-- `Int`-level month/day recovery. -/
theorem mp_recover_int (mp dd : Int) (h0 : 0 ≤ mp) (h1 : mp < 12)
    (h2 : 0 ≤ dd) (h3 : dd < (mpLenN mp.toNat : Int)) :
    (5 * ((153 * mp + 2) / 5 + dd) + 2) / 153 = mp := by
  obtain ⟨mn, rfl⟩ : ∃ n : Nat, mp = (n : Int) := ⟨mp.toNat, by omega⟩
  obtain ⟨dn, rfl⟩ : ∃ n : Nat, dd = (n : Int) := ⟨dd.toNat, by omega⟩
  have h := mp_recover mn (by omega) dn (by simpa using h3)
  unfold mpStartN at h
  exact_mod_cast congrArg (Nat.cast : Nat → Int) h

/- ----------------------------------------------------------------------------
The source conversions are the astronomical components plus the historical
year shift.
---------------------------------------------------------------------------- -/

theorem days_from_civil_astro (y m d : Int) :
    days_from_civil y m d = dfcAstro (if y < 0 then y + 1 else y) m d := by
  simp only [days_from_civil, dfcAstro, eraOf, doeOf, yoeOf, doyOf, mpOf, shiftB,
    Int.fdiv_eq_ediv _ (by norm_num : (0:Int) ≤ 400),
    Int.fdiv_eq_ediv _ (by norm_num : (0:Int) ≤ 5),
    Int.fdiv_eq_ediv _ (by norm_num : (0:Int) ≤ 4),
    Int.fdiv_eq_ediv _ (by norm_num : (0:Int) ≤ 100)]

theorem civil_from_days_astro (z : Int) :
    civil_from_days z = (if cfdY z < 1 then cfdY z - 1 else cfdY z, cfdM z, cfdD z) := by
  simp only [civil_from_days, cfdY, cfdM, cfdD, cfdMp, cfdDoy, cfdYoe, cfdDoe, cfdEra,
    Int.fdiv_eq_ediv _ (by norm_num : (0:Int) ≤ 146097),
    Int.fdiv_eq_ediv _ (by norm_num : (0:Int) ≤ 1460),
    Int.fdiv_eq_ediv _ (by norm_num : (0:Int) ≤ 36524),
    Int.fdiv_eq_ediv _ (by norm_num : (0:Int) ≤ 146096),
    Int.fdiv_eq_ediv _ (by norm_num : (0:Int) ≤ 365),
    Int.fdiv_eq_ediv _ (by norm_num : (0:Int) ≤ 4),
    Int.fdiv_eq_ediv _ (by norm_num : (0:Int) ≤ 100),
    Int.fdiv_eq_ediv _ (by norm_num : (0:Int) ≤ 153),
    Int.fdiv_eq_ediv _ (by norm_num : (0:Int) ≤ 5)]

theorem is_gregorian_leap_astro (y : Int) :
    is_gregorian_leap y = leapAstro (if y < 0 then y + 1 else y) := by
  simp only [is_gregorian_leap, leapAstro,
    Int.fmod_eq_emod _ (by norm_num : (0:Int) ≤ 4),
    Int.fmod_eq_emod _ (by norm_num : (0:Int) ≤ 100),
    Int.fmod_eq_emod _ (by norm_num : (0:Int) ≤ 400)]

theorem gameDateMaxDay_astro (y m : Int) :
    gameDateMaxDay y m = astroMaxDay (if y < 0 then y + 1 else y) m := by
  simp only [gameDateMaxDay, astroMaxDay, is_gregorian_leap_astro]

/-- Bound the valid day count by the March-calendar month length. -/
theorem astroMaxDay_le_mpLen (ya m : Int) (hm1 : 1 ≤ m) (hm2 : m ≤ 12) :
    astroMaxDay ya m ≤ ((mpLenN (mpOf m).toNat : Nat) : Int) := by
  unfold astroMaxDay mpOf mpLenN
  interval_cases m <;> cases leapAstro ya <;> simp [GREGORIAN_MONTH_LENGTHS]

/-- A date with `doy = 365` in the March calendar is February 29, which the
validator only admits in an (astronomical) leap year; in that case the
year-of-era's band has 366 days. -/
theorem doyOf_lt_ndays (ya m d : Int) (hm1 : 1 ≤ m) (hm2 : m ≤ 12) (hd1 : 1 ≤ d)
    (hd2 : d ≤ astroMaxDay ya m) :
    doyOf m d < ((ndaysN (yoeOf ya m).toNat : Nat) : Int) := by
  have hmp : 0 ≤ mpOf m ∧ mpOf m < 12 := by unfold mpOf; split <;> omega
  have hlen := astroMaxDay_le_mpLen ya m hm1 hm2
  have hdm := doy_max (mpOf m).toNat (by omega) (d - 1).toNat (by omega)
  have hge := ndaysN_ge (yoeOf ya m).toNat
  have hdoy : doyOf m d = ((mpStartN (mpOf m).toNat : Nat) : Int) + (d - 1) := by
    unfold doyOf mpStartN
    have : (153 * mpOf m + 2) / 5 = ((153 * (mpOf m).toNat + 2 : Nat) / 5 : Nat) := by
      omega
    omega
  rcases hdm with h364 | ⟨hmp11, hdd, h365⟩
  · omega
  -- February 29: the validator requires an astronomical leap year
  · have hm2' : m = 2 := by unfold mpOf at hmp11; omega
    have hd29 : d = 29 := by omega
    subst hm2'; subst hd29
    have hleap : leapAstro ya = true := by
      unfold astroMaxDay at hd2
      by_contra hne
      simp only [Bool.not_eq_true] at hne
      rw [hne] at hd2
      simp [GREGORIAN_MONTH_LENGTHS] at hd2
    unfold leapAstro at hleap
    have hya : ya % 4 = 0 ∧ (ya % 100 ≠ 0 ∨ ya % 400 = 0) := by
      by_cases h4 : ya % 4 = 0
      · by_cases h100 : ya % 100 = 0
        · by_cases h400 : ya % 400 = 0
          · exact ⟨h4, Or.inr h400⟩
          · simp [h4, h100, h400] at hleap
        · exact ⟨h4, Or.inl h100⟩
      · simp [h4] at hleap
    -- yoe + 1 inherits the leap pattern of ya (they differ by 400 * era + borrow)
    have hb : shiftB 2 = 1 := by unfold shiftB; norm_num
    have hyoe : yoeOf ya 2 = ya - 1 - (ya - 1) / 400 * 400 := by
      unfold yoeOf eraOf
      rw [hb]
    have hyoe0 : 0 ≤ yoeOf ya 2 ∧ yoeOf ya 2 < 400 := by
      rw [hyoe]; omega
    have hlnk : ((yoeOf ya 2).toNat + 1) % 4 = 0 := by omega
    have hlnk2 : ((yoeOf ya 2).toNat + 1) % 100 ≠ 0 ∨ ((yoeOf ya 2).toNat + 1) % 400 = 0 := by
      rcases hya.2 with h | h
      · left; omega
      · right; omega
    have h366 := ndaysN_leap (yoeOf ya 2).toNat (by omega) hlnk hlnk2
    omega

/-- The astronomical-level round trip: Hinnant's inverse recovers every valid
astronomical date from its day count. -/
theorem cfd_dfc_astro (ya m d : Int) (hm1 : 1 ≤ m) (hm2 : m ≤ 12) (hd1 : 1 ≤ d)
    (hd2 : d ≤ astroMaxDay ya m) :
    (cfdY (dfcAstro ya m d), cfdM (dfcAstro ya m d), cfdD (dfcAstro ya m d)) = (ya, m, d) := by
  have hmp : 0 ≤ mpOf m ∧ mpOf m < 12 := by unfold mpOf; split <;> omega
  have hyoe : 0 ≤ yoeOf ya m ∧ yoeOf ya m < 400 := by
    unfold yoeOf eraOf; constructor <;> omega
  have hdoy0 : 0 ≤ doyOf m d := by
    unfold doyOf
    omega
  have hdoyb := doyOf_lt_ndays ya m d hm1 hm2 hd1 hd2
  have hdoeval : doeOf ya m d =
      yoeOf ya m * 365 + yoeOf ya m / 4 - yoeOf ya m / 100 + doyOf m d := rfl
  have hdoe0 : 0 ≤ doeOf ya m d := by
    rw [hdoeval]
    have h4 : yoeOf ya m / 4 ≤ yoeOf ya m := Int.ediv_le_self _ hyoe.1
    have h100 : 0 ≤ yoeOf ya m / 100 ∧ yoeOf ya m / 100 ≤ yoeOf ya m / 4 := by omega
    omega
  have hbandle := yearStartN_ndaysN_le (yoeOf ya m).toNat (by omega)
  have hstarteq : yoeOf ya m * 365 + yoeOf ya m / 4 - yoeOf ya m / 100 =
      ((yearStartN (yoeOf ya m).toNat : Nat) : Int) := by
    unfold yearStartN
    omega
  have hdoelt : doeOf ya m d < 146097 := by
    rw [hdoeval, hstarteq]
    omega
  -- era and doe are recovered
  have hera : cfdEra (dfcAstro ya m d) = eraOf ya m := by
    unfold cfdEra dfcAstro
    omega
  have hdoe : cfdDoe (dfcAstro ya m d) = doeOf ya m d := by
    unfold cfdDoe
    rw [hera]
    unfold dfcAstro
    ring
  -- year-of-era is recovered (the band lemma)
  have hyoe2 : cfdYoe (dfcAstro ya m d) = yoeOf ya m := by
    unfold cfdYoe
    rw [hdoe]
    exact yoe_band_int (yoeOf ya m) (doyOf m d) (doeOf ya m d) hdoeval hyoe.1 hyoe.2 hdoy0 hdoyb
  -- day-of-year is recovered
  have hdoy2 : cfdDoy (dfcAstro ya m d) = doyOf m d := by
    unfold cfdDoy
    rw [hdoe, hyoe2, hdoeval]
    ring
  -- the March-based month index is recovered
  have hmp2 : cfdMp (dfcAstro ya m d) = mpOf m := by
    unfold cfdMp
    rw [hdoy2]
    have hlen := astroMaxDay_le_mpLen ya m hm1 hm2
    have hdd : doyOf m d = (153 * mpOf m + 2) / 5 + (d - 1) := by unfold doyOf; ring
    rw [hdd]
    exact mp_recover_int (mpOf m) (d - 1) hmp.1 hmp.2 (by omega) (by omega)
  -- the day is recovered
  have hd2' : cfdD (dfcAstro ya m d) = d := by
    unfold cfdD
    rw [hmp2, hdoy2]
    unfold doyOf
    ring
  -- the month is recovered
  have hm2' : cfdM (dfcAstro ya m d) = m := by
    unfold cfdM
    rw [hmp2]
    unfold mpOf
    split_ifs with h1 h2 h2 <;> omega
  -- the astronomical year is recovered
  have hy2 : cfdY (dfcAstro ya m d) = ya := by
    unfold cfdY
    rw [hyoe2, hera, hm2']
    unfold yoeOf shiftB
    split_ifs <;> omega
  rw [hy2, hm2', hd2']

/-- The Real-calendar round trip on historical years: for every validated
`GameDate` with `year ≠ 0`, `from_ordinal ∘ to_ordinal` is the identity. -/
theorem real_roundtrip (y m d : Int) (hv : ValidGameDate ⟨y, m, d⟩) (hy : y ≠ 0) :
    GameDate.from_ordinal (GameDate.to_ordinal ⟨y, m, d⟩ false) false = ⟨y, m, d⟩ := by
  obtain ⟨hm1, hm2, hd1, hd2⟩ := hv
  have hmax : gameDateMaxDay y m = astroMaxDay (if y < 0 then y + 1 else y) m :=
    gameDateMaxDay_astro y m
  rw [hmax] at hd2
  have hrt := cfd_dfc_astro (if y < 0 then y + 1 else y) m d hm1 hm2 hd1 hd2
  have hY : cfdY (dfcAstro (if y < 0 then y + 1 else y) m d) = (if y < 0 then y + 1 else y) :=
    congrArg Prod.fst hrt
  have hM : cfdM (dfcAstro (if y < 0 then y + 1 else y) m d) = m :=
    congrArg (fun p => p.2.1) hrt
  have hD : cfdD (dfcAstro (if y < 0 then y + 1 else y) m d) = d :=
    congrArg (fun p => p.2.2) hrt
  have h1 : GameDate.to_ordinal ⟨y, m, d⟩ false = days_from_civil y m d := rfl
  have h2 : GameDate.from_ordinal (days_from_civil y m d) false =
      ⟨(civil_from_days (days_from_civil y m d)).1,
       (civil_from_days (days_from_civil y m d)).2.1,
       (civil_from_days (days_from_civil y m d)).2.2⟩ := rfl
  rw [h1, h2]
  rw [days_from_civil_astro, civil_from_days_astro]
  simp only [GameDate.mk.injEq]
  refine ⟨?_, hM, hD⟩
  rw [hY]
  split_ifs <;> omega

/- ----------------------------------------------------------------------------
Claim theorems
---------------------------------------------------------------------------- -/

/-- **C1 counterexample**: the claim quantifies over *every* triple accepted by
`GameDate` construction, but construction accepts year 0 (the validator has no
year restriction), and the Real-calendar round trip maps `GameDate(0,1,1)` to
`GameDate(-1,1,1)`, not back to itself. -/
theorem C1_counterexample :
    ValidGameDate ⟨0, 1, 1⟩ ∧
    GameDate.from_ordinal (GameDate.to_ordinal ⟨0, 1, 1⟩ false) false = ⟨-1, 1, 1⟩ ∧
    GameDate.from_ordinal (GameDate.to_ordinal ⟨0, 1, 1⟩ false) false ≠ ⟨0, 1, 1⟩ := by
  refine ⟨by decide, by decide, by decide⟩

/-- **C1 (amended)**: for every `(year, month, day)` accepted by `GameDate`
construction *with `year ≠ 0`*, converting to a Real-calendar ordinal and back
recovers the same date — including wide-magnitude and negative years. -/
theorem C1_real_roundtrip (g : GameDate) (hv : ValidGameDate g) (hy : g.year ≠ 0) :
    GameDate.from_ordinal (g.to_ordinal false) false = g := by
  obtain ⟨y, m, d⟩ := g
  exact real_roundtrip y m d hv hy

/-- Witness for `C1_real_roundtrip` at the leap day of the wide-magnitude
negative year −401 (astronomical −400). -/
theorem C1_real_roundtrip_witness :
    ValidGameDate ⟨-401, 2, 29⟩ ∧ (⟨-401, 2, 29⟩ : GameDate).year ≠ 0 ∧
    GameDate.from_ordinal (GameDate.to_ordinal ⟨-401, 2, 29⟩ false) false = ⟨-401, 2, 29⟩ :=
  ⟨by decide, by decide, C1_real_roundtrip ⟨-401, 2, 29⟩ (by decide) (by decide)⟩

/-- **C6 (confirmed)**: `GameDate(-1,12,31).add_days(1, ignore_leap=False) ==
GameDate(1,1,1)` — there is no year zero in the historical numbering (and the
starting date is accepted by construction). -/
theorem C6_no_year_zero :
    ValidGameDate ⟨-1, 12, 31⟩ ∧ GameDate.add_days ⟨-1, 12, 31⟩ 1 false = ⟨1, 1, 1⟩ := by
  refine ⟨by decide, by decide⟩

/-- **C7 (confirmed)**: for every integer year `Y`, positive or negative, the
NoLeap-calendar difference from Jan 1 of `Y` to Jan 1 of `Y + 1` is exactly
365 days. -/
theorem C7_noleap_year_length (Y : Int) (h : 0 < Y ∨ Y < 0) :
    GameDate.days_until ⟨Y, 1, 1⟩ ⟨Y + 1, 1, 1⟩ true = 365 := by
  have hdoy : ∀ Z : Int, day_of_year_no_leap Z 1 1 = 1 := fun Z => rfl
  have h1 : ∀ Z : Int, GameDate.to_ordinal ⟨Z, 1, 1⟩ true =
      if 0 < Z then (Z - 1) * 365 else Z * 365 := by
    intro Z
    unfold GameDate.to_ordinal
    rw [hdoy]
    norm_num
  unfold GameDate.days_until
  rw [h1, h1]
  rcases h with h | h
  · rw [if_pos (by omega), if_pos h]; ring
  · rw [if_neg (by omega), if_neg (by omega)]; ring

/-- Witness for `C7_noleap_year_length` at `Y = -1` (the boundary into the
aliased year 0). -/
theorem C7_noleap_year_length_witness :
    ((0:Int) < -1 ∨ (-1:Int) < 0) ∧ GameDate.days_until ⟨-1, 1, 1⟩ ⟨-1 + 1, 1, 1⟩ true = 365 :=
  ⟨Or.inr (by norm_num), C7_noleap_year_length (-1) (Or.inr (by norm_num))⟩

/-- **C8 (confirmed)**: `GameDate` construction accepts year 0 (no year
restriction: Jan 1 of every year validates), and year 0 aliases its
neighbours: under the Real mapping `(0,m,d)` has the ordinal of `(-1,m,d)`
for every month/day valid in a leap year, and under the NoLeap mapping
`(0,m,d)` has the ordinal of `(1,m,d)` for every day within the fixed
month lengths. -/
theorem C8_year_zero_aliasing :
    (∀ y : Int, ValidGameDate ⟨y, 1, 1⟩) ∧
    (∀ m d : Int, ValidGameDate ⟨0, m, d⟩ →
      GameDate.to_ordinal ⟨0, m, d⟩ false = GameDate.to_ordinal ⟨-1, m, d⟩ false) ∧
    (∀ m d : Int, 1 ≤ m → m ≤ 12 → 1 ≤ d →
      d ≤ GREGORIAN_MONTH_LENGTHS.getD (m - 1).toNat 0 →
      GameDate.to_ordinal ⟨0, m, d⟩ true = GameDate.to_ordinal ⟨1, m, d⟩ true) := by
  refine ⟨?_, ?_, ?_⟩
  · intro y
    refine ⟨by norm_num, by norm_num, by norm_num, ?_⟩
    show (1:Int) ≤ gameDateMaxDay y 1
    unfold gameDateMaxDay
    norm_num [GREGORIAN_MONTH_LENGTHS]
  · intro m d _
    show days_from_civil 0 m d = days_from_civil (-1) m d
    unfold days_from_civil
    norm_num
  · intro m d _ _ _ _
    unfold GameDate.to_ordinal
    norm_num
    rfl

/-- Witness for `C8_year_zero_aliasing` at year 0, Feb 29 (Real) and Dec 31
(NoLeap). -/
theorem C8_year_zero_aliasing_witness :
    ValidGameDate ⟨0, 1, 1⟩ ∧
    GameDate.to_ordinal ⟨0, 2, 29⟩ false = GameDate.to_ordinal ⟨-1, 2, 29⟩ false ∧
    GameDate.to_ordinal ⟨0, 12, 31⟩ true = GameDate.to_ordinal ⟨1, 12, 31⟩ true :=
  ⟨C8_year_zero_aliasing.1 0,
   C8_year_zero_aliasing.2.1 2 29 (by decide),
   C8_year_zero_aliasing.2.2 12 31 (by norm_num) (by norm_num) (by norm_num) (by decide)⟩

/-- **C9 (confirmed)**: the playback engine's standalone no-leap ordinal
functions agree with the `GameDate` NoLeap mapping on their shared domain:
`date_to_no_leap_ordinal` matches `to_ordinal(ignore_leap=True)` for every
valid date with `year ≥ 1` and day within the fixed month lengths, and
`ordinal_to_date_no_leap` matches `from_ordinal(·, ignore_leap=True)` for
every ordinal ≥ 0. -/
theorem C9_engine_models_agree :
    (∀ g : GameDate, 1 ≤ g.year → ValidGameDate g →
      g.day ≤ NO_LEAP_MONTH_LENGTHS.getD (g.month - 1).toNat 0 →
      date_to_no_leap_ordinal g = g.to_ordinal true) ∧
    (∀ ordinal : Int, 0 ≤ ordinal →
      ordinal_to_date_no_leap ordinal = GameDate.from_ordinal ordinal true) := by
  constructor
  · intro g hy _ _
    obtain ⟨y, m, d⟩ := g
    unfold date_to_no_leap_ordinal GameDate.to_ordinal day_of_year_no_leap
    have hlists : NO_LEAP_CUMULATIVE = cumFrom 0 GREGORIAN_MONTH_LENGTHS := rfl
    rw [hlists]
    simp only at hy ⊢
    rw [if_pos (by omega : 0 < y)]
    norm_num
  · intro ordinal h0
    unfold ordinal_to_date_no_leap GameDate.from_ordinal
    have hlists : NO_LEAP_CUMULATIVE = cumFrom 0 GREGORIAN_MONTH_LENGTHS := rfl
    rw [hlists]
    norm_num [if_pos h0]

/-- Witness for `C9_engine_models_agree` at 1444-02-28 and ordinal 526700. -/
theorem C9_engine_models_agree_witness :
    date_to_no_leap_ordinal ⟨1444, 2, 28⟩ = GameDate.to_ordinal ⟨1444, 2, 28⟩ true ∧
    ordinal_to_date_no_leap 526700 = GameDate.from_ordinal 526700 true :=
  ⟨C9_engine_models_agree.1 ⟨1444, 2, 28⟩ (by norm_num) (by decide) (by decide),
   C9_engine_models_agree.2 526700 (by norm_num)⟩

/-- `snapshotLe` is total. -/
theorem snapshotLe_total (a b : Snapshot) : snapshotLe a b || snapshotLe b a := by
  unfold snapshotLe
  simp only [Bool.or_eq_true, decide_eq_true_eq]
  omega

/-- `snapshotLe` is transitive. -/
theorem snapshotLe_trans (a b c : Snapshot) :
    snapshotLe a b → snapshotLe b c → snapshotLe a c := by
  unfold snapshotLe
  simp only [decide_eq_true_eq]
  omega

/-- **C5 (confirmed)**: on a campaign whose snapshot list is sorted ascending
by Real-calendar ordinal with pairwise-distinct ids, `add_snapshot` fails
without any change when the id is already present (the error is raised before
the list is touched), and otherwise produces a list that contains the new
snapshot, keeps every old snapshot, is again sorted ascending by
Real-calendar ordinal, and still has pairwise-distinct ids. -/
theorem C5_add_snapshot (c : Campaign) (s : Snapshot)
    (_hsort : c.snapshots.Pairwise (fun a b => snapshotLe a b = true))
    (hids : (c.snapshots.map Snapshot.id).Nodup) :
    ((∃ t ∈ c.snapshots, t.id = s.id) →
        c.add_snapshot s = .error ("Snapshot with id " ++ s.id ++ " already exists")) ∧
    ((∀ t ∈ c.snapshots, t.id ≠ s.id) →
      ∃ c', c.add_snapshot s = .ok c' ∧
        s ∈ c'.snapshots ∧
        (∀ t ∈ c.snapshots, t ∈ c'.snapshots) ∧
        c'.snapshots.Pairwise (fun a b => snapshotLe a b = true) ∧
        (c'.snapshots.map Snapshot.id).Nodup) := by
  constructor
  · rintro ⟨t, ht, hid⟩
    unfold Campaign.add_snapshot
    rw [if_pos]
    exact List.any_eq_true.mpr ⟨t, ht, by simp [hid]⟩
  · intro hfresh
    have hany : c.snapshots.any (fun t => t.id == s.id) = false := by
      rw [List.any_eq_false]
      intro t ht
      simp [hfresh t ht]
    refine ⟨⟨(c.snapshots ++ [s]).mergeSort snapshotLe⟩, ?_, ?_, ?_, ?_, ?_⟩
    · unfold Campaign.add_snapshot
      rw [if_neg (by simp [hany])]
    · simp
    · intro t ht
      simp [ht]
    · exact List.sorted_mergeSort snapshotLe_trans snapshotLe_total (c.snapshots ++ [s])
    · have hperm : List.Perm (((c.snapshots ++ [s]).mergeSort snapshotLe).map Snapshot.id)
          ((c.snapshots ++ [s]).map Snapshot.id) :=
        (List.mergeSort_perm (c.snapshots ++ [s]) snapshotLe).map Snapshot.id
      rw [hperm.nodup_iff]
      simp only [List.map_append, List.map_cons, List.map_nil, List.nodup_append]
      refine ⟨hids, by simp, ?_⟩
      intro a ha
      simp only [List.mem_map] at ha
      obtain ⟨t, ht, rfl⟩ := ha
      simp [hfresh t ht]

/-- Witness for `C5_add_snapshot`: a two-snapshot campaign in invariant state,
extended with a fresh third snapshot. -/
theorem C5_add_snapshot_witness :
    ∃ c', Campaign.add_snapshot ⟨[⟨"a", ⟨1444, 1, 1⟩⟩, ⟨"b", ⟨1445, 6, 1⟩⟩]⟩
            ⟨"c", ⟨1446, 1, 1⟩⟩ = .ok c' ∧
      (⟨"c", ⟨1446, 1, 1⟩⟩ : Snapshot) ∈ c'.snapshots ∧
      (∀ t ∈ ([⟨"a", ⟨1444, 1, 1⟩⟩, ⟨"b", ⟨1445, 6, 1⟩⟩] :
          List Snapshot), t ∈ c'.snapshots) ∧
      c'.snapshots.Pairwise (fun a b => snapshotLe a b = true) ∧
      (c'.snapshots.map Snapshot.id).Nodup :=
  (C5_add_snapshot ⟨[⟨"a", ⟨1444, 1, 1⟩⟩, ⟨"b", ⟨1445, 6, 1⟩⟩]⟩ ⟨"c", ⟨1446, 1, 1⟩⟩
    (by decide) (by decide)).2 (by decide)

/- ----------------------------------------------------------------------------
Helpers for the playback-engine claims
---------------------------------------------------------------------------- -/

theorem ratFloor_intCast (n : Int) : ratFloor (n : ℚ) = n := by
  unfold ratFloor
  rw [Rat.num_intCast, Rat.den_intCast]
  rw [Int.fdiv_eq_ediv _ (by norm_num)]
  simp

/-- `tick` in the `days_per_second` + no-leap configuration. -/
theorem tick_days_noleap (s : TemporalEngineState) (dt : ℚ)
    (hu : s.playback_speed.units = "days_per_second") (hl : s.ignore_leap_years = true) :
    s.tick dt = .ok { s with current_datetime :=
      ((days_from_civil
        (ordinal_to_date_no_leap (roundHalfEven
          ((date_to_no_leap_ordinal (get_current_date s) : ℚ) + s.playback_speed.value * dt))).year
        (ordinal_to_date_no_leap (roundHalfEven
          ((date_to_no_leap_ordinal (get_current_date s) : ℚ) + s.playback_speed.value * dt))).month
        (ordinal_to_date_no_leap (roundHalfEven
          ((date_to_no_leap_ordinal (get_current_date s) : ℚ) + s.playback_speed.value * dt))).day
        : Int) : ℚ) } := by
  unfold TemporalEngineState.tick
  rw [if_neg (by simp [hu]), if_pos hl]

/-- `tick` in the `days_per_second` + real-calendar configuration: plain
`timedelta` addition, no rounding. -/
theorem tick_days_real (s : TemporalEngineState) (dt : ℚ)
    (hu : s.playback_speed.units = "days_per_second") (hl : s.ignore_leap_years = false) :
    s.tick dt = .ok { s with current_datetime :=
      s.current_datetime + s.playback_speed.value * dt } := by
  unfold TemporalEngineState.tick
  rw [if_neg (by simp [hu]), if_neg (by simp [hl])]

/-- `tick` with any unit other than `days_per_second` raises. -/
theorem tick_bad_unit (s : TemporalEngineState) (dt : ℚ)
    (hu : s.playback_speed.units ≠ "days_per_second") :
    s.tick dt = .error tickUnitError := by
  unfold TemporalEngineState.tick
  rw [if_pos (by simp [hu])]

/-- The engine's no-leap ordinal agrees with `GameDate.to_ordinal(True)` for
positive years (both compute `(y-1)*365 + cum[m-1] + d - 1`). -/
theorem noleap_ord_agree (g : GameDate) (hy : 1 ≤ g.year) :
    date_to_no_leap_ordinal g = g.to_ordinal true := by
  obtain ⟨y, m, d⟩ := g
  unfold date_to_no_leap_ordinal GameDate.to_ordinal day_of_year_no_leap
  have hlists : NO_LEAP_CUMULATIVE = cumFrom 0 GREGORIAN_MONTH_LENGTHS := rfl
  rw [hlists]
  simp only at hy ⊢
  rw [if_pos (by omega : 0 < y)]
  norm_num

/-- The engine's no-leap inverse agrees with `GameDate.from_ordinal(·, True)`
for nonnegative ordinals. -/
theorem noleap_from_agree (ordinal : Int) (h0 : 0 ≤ ordinal) :
    ordinal_to_date_no_leap ordinal = GameDate.from_ordinal ordinal true := by
  unfold ordinal_to_date_no_leap GameDate.from_ordinal
  have hlists : NO_LEAP_CUMULATIVE = cumFrom 0 GREGORIAN_MONTH_LENGTHS := rfl
  rw [hlists]
  norm_num [if_pos h0]

set_option maxRecDepth 4000 in
set_option maxHeartbeats 1000000 in
/-- The month scan of the no-leap inverse resolves every day-of-year in
`1..365` to a valid month and day (February capped at 28). -/
theorem scan_valid : ∀ k : Nat, k < 365 →
    1 ≤ monthScanLoop (cumFrom 0 GREGORIAN_MONTH_LENGTHS) ((k : Int) + 1) 1 12 ∧
    monthScanLoop (cumFrom 0 GREGORIAN_MONTH_LENGTHS) ((k : Int) + 1) 1 12 ≤ 12 ∧
    1 ≤ (k : Int) + 1 - (cumFrom 0 GREGORIAN_MONTH_LENGTHS).getD
        ((monthScanLoop (cumFrom 0 GREGORIAN_MONTH_LENGTHS) ((k : Int) + 1) 1 12 - 1)).toNat 0 ∧
    (k : Int) + 1 - (cumFrom 0 GREGORIAN_MONTH_LENGTHS).getD
        ((monthScanLoop (cumFrom 0 GREGORIAN_MONTH_LENGTHS) ((k : Int) + 1) 1 12 - 1)).toNat 0 ≤
      (if monthScanLoop (cumFrom 0 GREGORIAN_MONTH_LENGTHS) ((k : Int) + 1) 1 12 = 2 then 28
       else GREGORIAN_MONTH_LENGTHS.getD
         ((monthScanLoop (cumFrom 0 GREGORIAN_MONTH_LENGTHS) ((k : Int) + 1) 1 12 - 1)).toNat 0) := by
  decide

/-- A day bounded by the no-leap month length is a valid day of the real
calendar too. -/
theorem le_maxDay_of_le_noleap (y m d : Int)
    (h : d ≤ (if m = 2 then 28 else GREGORIAN_MONTH_LENGTHS.getD (m - 1).toNat 0)) :
    d ≤ gameDateMaxDay y m := by
  unfold gameDateMaxDay
  dsimp only
  by_cases hm : m = 2
  · subst hm
    simp only [if_pos rfl] at h
    have h28 : GREGORIAN_MONTH_LENGTHS.getD ((2:Int) - 1).toNat 0 = 28 := by decide
    split_ifs <;> omega
  · rw [if_neg hm] at h
    rw [if_neg (by tauto)]
    exact h

/-- `GameDate.from_ordinal(·, True)` yields a validated date with a positive
year on every nonnegative ordinal. -/
theorem from_ordinal_noleap_props (ordinal : Int) (h0 : 0 ≤ ordinal) :
    ValidGameDate (GameDate.from_ordinal ordinal true) ∧
    1 ≤ (GameDate.from_ordinal ordinal true).year := by
  have hmod : 0 ≤ Int.fmod ordinal 365 ∧ Int.fmod ordinal 365 < 365 := by
    rw [Int.fmod_eq_emod _ (by norm_num)]
    omega
  have hsv := scan_valid (Int.fmod ordinal 365).toNat (by omega)
  have hcast : ((Int.fmod ordinal 365).toNat : Int) + 1 = Int.fmod ordinal 365 + 1 := by omega
  rw [hcast] at hsv
  obtain ⟨h1, h2, h3, h4⟩ := hsv
  have hyear : 1 ≤ Int.fdiv ordinal 365 + 1 := by
    rw [Int.fdiv_eq_ediv _ (by norm_num)]
    omega
  have hform : GameDate.from_ordinal ordinal true =
      ⟨Int.fdiv ordinal 365 + 1,
       monthScanLoop (cumFrom 0 GREGORIAN_MONTH_LENGTHS) (Int.fmod ordinal 365 + 1) 1 12,
       Int.fmod ordinal 365 + 1 - (cumFrom 0 GREGORIAN_MONTH_LENGTHS).getD
         ((monthScanLoop (cumFrom 0 GREGORIAN_MONTH_LENGTHS)
            (Int.fmod ordinal 365 + 1) 1 12 - 1)).toNat 0⟩ := by
    unfold GameDate.from_ordinal
    norm_num [if_pos h0]
  rw [hform]
  exact ⟨⟨h1, h2, h3, le_maxDay_of_le_noleap _ _ _ h4⟩, hyear⟩

/-- The civil-level Real round trip (the `Prod` form of `real_roundtrip`). -/
theorem civil_days_civil (y m d : Int) (hv : ValidGameDate ⟨y, m, d⟩) (hy : y ≠ 0) :
    civil_from_days (days_from_civil y m d) = (y, m, d) := by
  have h := real_roundtrip y m d hv hy
  have h1 : GameDate.to_ordinal ⟨y, m, d⟩ false = days_from_civil y m d := rfl
  have h2 : GameDate.from_ordinal (days_from_civil y m d) false =
      ⟨(civil_from_days (days_from_civil y m d)).1,
       (civil_from_days (days_from_civil y m d)).2.1,
       (civil_from_days (days_from_civil y m d)).2.2⟩ := rfl
  rw [h1, h2, GameDate.mk.injEq] at h
  obtain ⟨ha, hb, hc⟩ := h
  exact Prod.ext ha (Prod.ext hb hc)

/-- Storing a validated nonzero-year date as a midnight `datetime` and reading
the date part back recovers the date. -/
theorem get_current_date_of_civil (s : TemporalEngineState) (y m d : Int)
    (hv : ValidGameDate ⟨y, m, d⟩) (hy : y ≠ 0)
    (hc : s.current_datetime = ((days_from_civil y m d : Int) : ℚ)) :
    get_current_date s = ⟨y, m, d⟩ := by
  unfold get_current_date
  rw [hc, ratFloor_intCast, civil_days_civil y m d hv hy]

/-- `get_current_date_of_civil`, packaged for a whole `GameDate`. -/
theorem get_current_date_of_civil_gd (s : TemporalEngineState) (g : GameDate)
    (hv : ValidGameDate g) (hy : g.year ≠ 0)
    (hc : s.current_datetime = ((days_from_civil g.year g.month g.day : Int) : ℚ)) :
    get_current_date s = g := by
  obtain ⟨y, m, d⟩ := g
  exact get_current_date_of_civil s y m d hv hy hc

/-- **C2 counterexample**: the claim says a months-per-second unit multiplies
the magnitude by 30 (and only an *unrecognized* unit is a configuration
error), but `tick` raises its `NotImplementedError` for `months_per_second`:
no tick with that unit ever succeeds. -/
theorem C2_counterexample :
    monthsSpeedState.playback_speed.units = "months_per_second" ∧
    monthsSpeedState.tick 1 = .error tickUnitError := by
  exact ⟨rfl, tick_bad_unit _ _ (by decide)⟩

/-- **C2 (amended)**: `tick` computes its days-per-second rate only for the
exact unit string `days_per_second`, leaving the magnitude unchanged (in
real-calendar mode the datetime advances by exactly `value * dtSeconds`
days); *every* other unit string — including `months_per_second` and
`years_per_second` — is a fatal configuration error for that tick call. -/
theorem C2_tick_units (s : TemporalEngineState) (dt : ℚ) :
    (s.playback_speed.units ≠ "days_per_second" → s.tick dt = .error tickUnitError) ∧
    (s.playback_speed.units = "days_per_second" → ∃ s', s.tick dt = .ok s') ∧
    (s.playback_speed.units = "days_per_second" → s.ignore_leap_years = false →
      s.tick dt = .ok { s with current_datetime :=
        s.current_datetime + s.playback_speed.value * dt }) := by
  refine ⟨fun hu => tick_bad_unit s dt hu, fun hu => ?_,
    fun hu hl => tick_days_real s dt hu hl⟩
  by_cases hl : s.ignore_leap_years
  · exact ⟨_, tick_days_noleap s dt hu hl⟩
  · exact ⟨_, tick_days_real s dt hu (by simpa using hl)⟩

/-- Witness for `C2_tick_units`: with `days_per_second` at 1.0 in real mode,
one tick of 1 s advances the datetime by exactly one day. -/
theorem C2_tick_units_witness :
    daysRealPlayingState.tick 1 = .ok { daysRealPlayingState with current_datetime :=
      daysRealPlayingState.current_datetime +
        daysRealPlayingState.playback_speed.value * 1 } :=
  (C2_tick_units daysRealPlayingState 1).2.2 rfl rfl

/-- **C3 counterexample**: `TemporalEngine.tick` does not consult the
`playing` flag: from the paused test configuration (speed 1 day/s, no-leap,
current 2000-01-01), one tick of 1 s moves the current date to 2000-01-02.
(This is exactly what the engine's own tests expect: they tick without ever
calling `play()`.) -/
theorem C3_counterexample :
    daysNoLeapPausedState.playing = false ∧
    daysNoLeapPausedState.tick 1 = .ok { daysNoLeapPausedState with
      current_datetime := ((days_from_civil 2000 1 2 : Int) : ℚ) } ∧
    get_current_date { daysNoLeapPausedState with
      current_datetime := ((days_from_civil 2000 1 2 : Int) : ℚ) } = ⟨2000, 1, 2⟩ ∧
    get_current_date daysNoLeapPausedState = ⟨2000, 1, 1⟩ := by
  refine ⟨rfl, ?_, by decide, by decide⟩
  rw [tick_days_noleap _ _ rfl rfl]
  have hgc : get_current_date daysNoLeapPausedState = ⟨2000, 1, 1⟩ := by decide
  rw [hgc]
  have hord : date_to_no_leap_ordinal ⟨2000, 1, 1⟩ = 729635 := by decide
  rw [hord]
  have hval : daysNoLeapPausedState.playback_speed.value = 1 := rfl
  rw [hval]
  have hr : roundHalfEven (((729635 : Int) : ℚ) + 1 * 1) = 729636 := by
    norm_num [roundHalfEven, ratFloor, Int.fdiv_eq_ediv, Int.fmod_eq_emod]
  rw [hr]
  have hd : ordinal_to_date_no_leap 729636 = ⟨2000, 1, 2⟩ := by decide
  rw [hd]

/-- **C3 (amended)**: the pause guard lives in the view model, not the
engine: `PlayerViewModel.tick` is a strict no-op (state unchanged, no engine
call) whenever `playing` is false; `TemporalEngine.tick` itself advances the
date regardless of the `playing` flag. -/
theorem C3_vm_pause_guard (s : TemporalEngineState) (dt : ℚ) (hp : s.playing = false) :
    playerViewModelTick s dt = .ok s := by
  unfold playerViewModelTick
  rw [hp]
  rfl

/-- Witness for `C3_vm_pause_guard` at the paused test state. -/
theorem C3_vm_pause_guard_witness :
    playerViewModelTick daysNoLeapPausedState 1 = .ok daysNoLeapPausedState :=
  C3_vm_pause_guard daysNoLeapPausedState 1 rfl

/-- **C4 counterexample**: in Real mode the code does *not* set the current
date to `fromOrdinal(round(toOrdinal(current) + advance))`: from 2000-01-01
(ordinal 10957) a playing tick of 0.5 days leaves the datetime at
10957.5, whose date part is still 2000-01-01, while the claim's
round-half-to-even formula yields ordinal 10958, i.e. 2000-01-02. -/
theorem C4_counterexample :
    daysRealPlayingState.playing = true ∧
    daysRealPlayingState.tick (1/2) = .ok { daysRealPlayingState with
      current_datetime := daysRealPlayingState.current_datetime +
        daysRealPlayingState.playback_speed.value * (1/2) } ∧
    get_current_date { daysRealPlayingState with
      current_datetime := daysRealPlayingState.current_datetime +
        daysRealPlayingState.playback_speed.value * (1/2) } = ⟨2000, 1, 1⟩ ∧
    GameDate.from_ordinal (roundHalfEven
      ((GameDate.to_ordinal ⟨2000, 1, 1⟩ false : ℚ) +
        daysRealPlayingState.playback_speed.value * (1/2))) false = ⟨2000, 1, 2⟩ := by
  refine ⟨rfl, tick_days_real _ _ rfl rfl, ?_, ?_⟩
  · unfold get_current_date
    have hcdt : daysRealPlayingState.current_datetime = ((10957 : Int) : ℚ) := by
      show ((days_from_civil 2000 1 1 : Int) : ℚ) = ((10957 : Int) : ℚ)
      norm_num [show days_from_civil 2000 1 1 = 10957 from by decide]
    have hval : daysRealPlayingState.playback_speed.value = 1 := rfl
    rw [hcdt, hval]
    have hfl : ratFloor (((10957 : Int) : ℚ) + 1 * (1/2)) = 10957 := by
      norm_num [ratFloor, Int.fdiv_eq_ediv]
    rw [hfl]
    decide
  · have hto : GameDate.to_ordinal ⟨2000, 1, 1⟩ false = (10957 : Int) := by decide
    have hval : daysRealPlayingState.playback_speed.value = 1 := rfl
    rw [hto, hval]
    have hr : roundHalfEven (((10957 : Int) : ℚ) + 1 * (1/2)) = 10958 := by
      norm_num [roundHalfEven, ratFloor, Int.fdiv_eq_ediv, Int.fmod_eq_emod]
    rw [hr]
    decide

/-- **C4 (amended)**: a successful `days_per_second` tick behaves differently
in the two modes.  In NoLeap mode the new current date is
`fromOrdinal(round(toOrdinal(current, NoLeap) + value*dt), NoLeap)` with
round-half-to-even, exactly as the claim states (for the engine's datetime
domain: positive years and a nonnegative new ordinal).  In Real mode there is
no rounding at all: the engine adds `value*dt` days to the sub-day datetime
cursor, and the current date is the calendar date containing it. -/
theorem C4_tick_formula (s : TemporalEngineState) (dt : ℚ)
    (_hp : s.playing = true) (hu : s.playback_speed.units = "days_per_second") :
    (s.ignore_leap_years = true →
      1 ≤ (get_current_date s).year →
      0 ≤ roundHalfEven ((GameDate.to_ordinal (get_current_date s) true : ℚ) +
            s.playback_speed.value * dt) →
      ∃ s', s.tick dt = .ok s' ∧
        get_current_date s' =
          GameDate.from_ordinal (roundHalfEven
            ((GameDate.to_ordinal (get_current_date s) true : ℚ) +
              s.playback_speed.value * dt)) true) ∧
    (s.ignore_leap_years = false →
      s.tick dt = .ok { s with current_datetime :=
        s.current_datetime + s.playback_speed.value * dt }) := by
  constructor
  · intro hl hy hr
    have hord : date_to_no_leap_ordinal (get_current_date s) =
        GameDate.to_ordinal (get_current_date s) true := noleap_ord_agree _ hy
    have htick := tick_days_noleap s dt hu hl
    rw [hord] at htick
    rw [noleap_from_agree _ hr] at htick
    refine ⟨_, htick, ?_⟩
    obtain ⟨hvalid, hy1⟩ := from_ordinal_noleap_props
      (roundHalfEven ((GameDate.to_ordinal (get_current_date s) true : ℚ) +
        s.playback_speed.value * dt)) hr
    refine get_current_date_of_civil_gd _ _ hvalid ?_ rfl
    omega
  · exact fun hl => tick_days_real s dt hu hl

/-- Witness for `C4_tick_formula`: the NoLeap playback scenario — from
2000-01-01 at 1 day/s, `tick(365)` lands on the date of ordinal 730000
(i.e. 2001-01-01, since 2000 has 365 days in NoLeap mode). -/
theorem C4_tick_formula_witness :
    (0 : Int) ≤ roundHalfEven ((GameDate.to_ordinal
        (get_current_date daysNoLeapPlayingState) true : ℚ) +
        daysNoLeapPlayingState.playback_speed.value * 365) ∧
    ∃ s', daysNoLeapPlayingState.tick 365 = .ok s' ∧
      get_current_date s' = GameDate.from_ordinal (roundHalfEven
        ((GameDate.to_ordinal (get_current_date daysNoLeapPlayingState) true : ℚ) +
          daysNoLeapPlayingState.playback_speed.value * 365)) true := by
  have hg : get_current_date daysNoLeapPlayingState = ⟨2000, 1, 1⟩ := by decide
  have hval : daysNoLeapPlayingState.playback_speed.value = 1 := rfl
  have hto : GameDate.to_ordinal ⟨2000, 1, 1⟩ true = 729635 := by decide
  have hr : roundHalfEven ((GameDate.to_ordinal
      (get_current_date daysNoLeapPlayingState) true : ℚ) +
      daysNoLeapPlayingState.playback_speed.value * 365) = 730000 := by
    rw [hg, hto, hval]
    norm_num [roundHalfEven, ratFloor, Int.fdiv_eq_ediv, Int.fmod_eq_emod]
  exact ⟨by rw [hr]; norm_num,
    (C4_tick_formula daysNoLeapPlayingState 365 rfl rfl).1 rfl
      (by rw [hg]; norm_num) (by rw [hr]; norm_num)⟩

/- ----------------------------------------------------------------------------
Helpers for the ISO text round trip (C10)
---------------------------------------------------------------------------- -/

theorem digit_not_ws (c : Char) (h : c.isDigit = true) : c.isWhitespace = false := by
  unfold Char.isDigit at h
  unfold Char.isWhitespace
  simp only [Bool.and_eq_true, decide_eq_true_eq] at h
  obtain ⟨h1, h2⟩ := h
  simp only [Bool.or_eq_false_iff, decide_eq_false_iff_not]
  refine ⟨⟨⟨?_, ?_⟩, ?_⟩, ?_⟩ <;> (intro heq; subst heq; exact absurd h1 (by decide))

theorem digitChar_isDigit : ∀ r < 10, (digitChar r).isDigit = true := by decide

theorem digitChar_toNat : ∀ r < 10, (digitChar r).toNat - 48 = r := by decide

theorem digitsVal_append_one (l : List Char) (c : Char) :
    digitsVal (l ++ [c]) = digitsVal l * 10 + (c.toNat - 48) := by
  unfold digitsVal
  rw [List.foldl_append]
  rfl

theorem natDigitsAux_digits : ∀ fuel n, ∀ c ∈ natDigitsAux fuel n, c.isDigit = true := by
  intro fuel
  induction fuel with
  | zero => intro n c hc; simp [natDigitsAux] at hc
  | succ f ih =>
    intro n c hc
    unfold natDigitsAux at hc
    by_cases hn : n = 0
    · simp [hn] at hc
    · rw [if_neg hn] at hc
      rcases List.mem_append.mp hc with h | h
      · exact ih _ c h
      · simp only [List.mem_singleton] at h
        subst h
        exact digitChar_isDigit (n % 10) (by omega)

theorem natDigitsAux_val : ∀ fuel n, n ≤ fuel → digitsVal (natDigitsAux fuel n) = n := by
  intro fuel
  induction fuel with
  | zero => intro n h; interval_cases n; rfl
  | succ f ih =>
    intro n h
    unfold natDigitsAux
    by_cases hn : n = 0
    · subst hn; rfl
    · rw [if_neg hn, digitsVal_append_one, ih (n / 10) (by omega),
        digitChar_toNat (n % 10) (by omega)]
      omega

theorem natStr_val (n : Nat) : digitsVal (natStr n) = n := by
  unfold natStr
  by_cases hn : n = 0
  · subst hn; rfl
  · rw [if_neg hn]; exact natDigitsAux_val n n le_rfl

theorem natStr_digits (n : Nat) : ∀ c ∈ natStr n, c.isDigit = true := by
  unfold natStr
  by_cases hn : n = 0
  · subst hn
    intro c hc
    simp at hc
    subst hc
    decide
  · rw [if_neg hn]; exact natDigitsAux_digits n n

theorem natDigitsAux_length : ∀ fuel n k, n < 10 ^ k → (natDigitsAux fuel n).length ≤ k := by
  intro fuel
  induction fuel with
  | zero => intro n k _; simp [natDigitsAux]
  | succ f ih =>
    intro n k hk
    unfold natDigitsAux
    by_cases hn : n = 0
    · simp [hn]
    · rw [if_neg hn]
      rcases k with _ | j
      · norm_num at hk; omega
      · have hp : (10 : Nat) ^ (j + 1) = 10 * 10 ^ j := by rw [pow_succ]; ring
        have h2 : n / 10 < 10 ^ j := by omega
        have h3 := ih (n / 10) j h2
        simp only [List.length_append, List.length_cons, List.length_nil]
        omega

theorem natStr_length_le (n k : Nat) (hk : 1 ≤ k) (h : n < 10 ^ k) :
    (natStr n).length ≤ k := by
  unfold natStr
  by_cases hn : n = 0
  · simp [hn]; omega
  · rw [if_neg hn]; exact natDigitsAux_length n n k h

theorem natStr_length_pos (n : Nat) : 1 ≤ (natStr n).length := by
  unfold natStr
  by_cases hn : n = 0
  · simp [hn]
  · rw [if_neg hn]
    obtain ⟨f, rfl⟩ : ∃ f, n = f + 1 := ⟨n - 1, by omega⟩
    unfold natDigitsAux
    rw [if_neg hn]
    simp

theorem padZeros_digits (w : Nat) (s : List Char) (hs : ∀ c ∈ s, c.isDigit = true) :
    ∀ c ∈ padZeros w s, c.isDigit = true := by
  intro c hc
  unfold padZeros at hc
  rcases List.mem_append.mp hc with h | h
  · rw [List.eq_of_mem_replicate h]; decide
  · exact hs c h

theorem padZeros_val (w : Nat) (s : List Char) : digitsVal (padZeros w s) = digitsVal s := by
  unfold padZeros digitsVal
  rw [List.foldl_append]
  have hz : ∀ j, List.foldl (fun acc c => acc * 10 + (c.toNat - 48)) 0
      (List.replicate j '0') = 0 := by
    intro j
    induction j with
    | zero => rfl
    | succ i ih =>
      rw [List.replicate_succ, List.foldl_cons]
      have h0 : (0 * 10 + (('0' : Char).toNat - 48)) = 0 := by decide
      rw [h0, ih]
  rw [hz]

theorem padZeros_length (w : Nat) (s : List Char) :
    (padZeros w s).length = max w s.length := by
  unfold padZeros
  simp only [List.length_append, List.length_replicate]
  omega

/-- A nonempty all-digit run followed by a non-digit splits `takeWhile` /
`dropWhile` at the boundary. -/
theorem takeWhile_append_cons (p : Char → Bool) (l : List Char) (x : Char) (r : List Char)
    (hl : ∀ c ∈ l, p c = true) (hx : p x = false) :
    (l ++ x :: r).takeWhile p = l ∧ (l ++ x :: r).dropWhile p = x :: r := by
  induction l with
  | nil => simp [List.takeWhile_cons, List.dropWhile_cons, hx]
  | cons a t ih =>
    have ha : p a = true := hl a (by simp)
    obtain ⟨h1, h2⟩ := ih (fun c hc => hl c (by simp [hc]))
    constructor
    · simp only [List.cons_append, List.takeWhile_cons, ha, if_true, h1]
    · simp only [List.cons_append, List.dropWhile_cons, ha, if_true, h2]

theorem trim_id (l : List Char) (h : ∀ c ∈ l, c.isWhitespace = false) :
    ((l.dropWhile Char.isWhitespace).reverse.dropWhile Char.isWhitespace).reverse = l := by
  have h1 : l.dropWhile Char.isWhitespace = l := by
    cases l with
    | nil => rfl
    | cons a t =>
      rw [List.dropWhile_cons, h a (by simp)]
      simp
  rw [h1]
  have h2 : l.reverse.dropWhile Char.isWhitespace = l.reverse := by
    cases hrev : l.reverse with
    | nil => rfl
    | cons a t =>
      have ha : a ∈ l := by
        rw [← List.mem_reverse, hrev]
        simp
      rw [List.dropWhile_cons, h a ha]
      simp
  rw [h2, List.reverse_reverse]

/-- The year-digit backtracking loop accepts the full digit run when the rest
of the pattern matches right after it. -/
theorem tryYearSplit_full (run rest : List Char) (md : Option (List Char) × Option (List Char))
    (hlen : 1 ≤ run.length) (hp : parseAfterYear rest = some md) :
    ∀ K, run.length ≤ K → tryYearSplit run rest K = some (run, md) := by
  intro K
  induction K with
  | zero => omega
  | succ k ih =>
    intro hK
    unfold tryYearSplit
    by_cases he : k + 1 ≤ run.length
    · have hkeq : k + 1 = run.length := by omega
      rw [if_pos he, hkeq, List.drop_length, List.nil_append, hp, List.take_length]
    · rw [if_neg he]
      exact ih (by omega)

/-- A zero-padded two-digit block: exactly two digit characters carrying the
value. -/
theorem pad2_two (n : Nat) (h : n ≤ 99) :
    ∃ a b, padZeros 2 (natStr n) = [a, b] ∧ a.isDigit = true ∧ b.isDigit = true ∧
      digitsVal [a, b] = n := by
  have hle : (natStr n).length ≤ 2 := natStr_length_le n 2 (by norm_num) (by norm_num; omega)
  have hlen : (padZeros 2 (natStr n)).length = 2 := by
    rw [padZeros_length]
    omega
  obtain ⟨a, b, hab⟩ := List.length_eq_two.mp hlen
  have hdig := padZeros_digits 2 (natStr n) (natStr_digits n)
  refine ⟨a, b, hab, ?_, ?_, ?_⟩
  · exact hdig a (by rw [hab]; simp)
  · exact hdig b (by rw [hab]; simp)
  · rw [← hab, padZeros_val, natStr_val]

theorem digit_ne_plus (c : Char) (h : c.isDigit = true) : c ≠ '+' := by
  unfold Char.isDigit at h
  simp only [Bool.and_eq_true, decide_eq_true_eq] at h
  intro heq
  subst heq
  exact absurd h.1 (by decide)

theorem digit_ne_minus (c : Char) (h : c.isDigit = true) : c ≠ '-' := by
  unfold Char.isDigit at h
  simp only [Bool.and_eq_true, decide_eq_true_eq] at h
  intro heq
  subst heq
  exact absurd h.1 (by decide)

theorem minus_not_digit : ('-' : Char).isDigit = false := by decide

/-- The month/day tail of a well-formed ISO string parses to its two
two-digit groups. -/
theorem parseAfterYear_canonical (m1 m2 d1 d2 : Char)
    (hm1 : m1.isDigit = true) (hm2 : m2.isDigit = true)
    (hd1 : d1.isDigit = true) (hd2 : d2.isDigit = true) :
    parseAfterYear ('-' :: m1 :: m2 :: '-' :: d1 :: d2 :: []) =
      some (some [m1, m2], some [d1, d2]) := by
  have hday : parseDayDigits (d1 :: d2 :: []) = some [d1, d2] := by
    simp [parseDayDigits, hd1, hd2, onlyWhitespace]
  have hdaypart : parseDayPart ('-' :: d1 :: d2 :: []) = some (some [d1, d2]) := by
    simp [parseDayPart, hday, show isSep2 '-' = true from by decide]
  have hmonth : parseMonthDay (m1 :: m2 :: '-' :: d1 :: d2 :: []) =
      some ([m1, m2], some [d1, d2]) := by
    simp [parseMonthDay, hm1, hm2, hdaypart]
  simp [parseAfterYear, hmonth, show isSep1 '-' = true from by decide]

/-- The year run and tail of a canonical body feed `regexParse` into validated
construction on the three numeric groups. -/
theorem regexParse_canonical (sign : Int) (yds : List Char) (m1 m2 d1 d2 : Char)
    (hy1 : 1 ≤ yds.length) (hy5 : yds.length ≤ 5)
    (hyd : ∀ c ∈ yds, c.isDigit = true)
    (hm1 : m1.isDigit = true) (hm2 : m2.isDigit = true)
    (hd1 : d1.isDigit = true) (hd2 : d2.isDigit = true) :
    regexParse sign (yds ++ '-' :: m1 :: m2 :: '-' :: d1 :: d2 :: []) =
      mkGameDate (sign * (digitsVal yds : Int))
        (digitsVal [m1, m2] : Int) (digitsVal [d1, d2] : Int) := by
  have hsplit := takeWhile_append_cons Char.isDigit yds '-'
    (m1 :: m2 :: '-' :: d1 :: d2 :: []) hyd minus_not_digit
  have hpay := parseAfterYear_canonical m1 m2 d1 d2 hm1 hm2 hd1 hd2
  have htry := tryYearSplit_full yds ('-' :: m1 :: m2 :: '-' :: d1 :: d2 :: [])
    (some [m1, m2], some [d1, d2]) hy1 hpay 5 hy5
  simp only [regexParse, hsplit.1, hsplit.2, htry]

/-- Parsing a canonically formed `[sign]digits-DD-DD` string yields the
construction call on its three numeric groups. -/
theorem fromiso_canonical (neg : Bool) (yds : List Char) (m1 m2 d1 d2 : Char)
    (hy1 : 1 ≤ yds.length) (hy5 : yds.length ≤ 5)
    (hyd : ∀ c ∈ yds, c.isDigit = true)
    (hm1 : m1.isDigit = true) (hm2 : m2.isDigit = true)
    (hd1 : d1.isDigit = true) (hd2 : d2.isDigit = true) :
    fromiso ((if neg then ['-'] else []) ++ yds ++ ['-'] ++ [m1, m2] ++ ['-'] ++ [d1, d2]) =
      mkGameDate ((if neg then (-1 : Int) else 1) * (digitsVal yds : Int))
        (digitsVal [m1, m2] : Int) (digitsVal [d1, d2] : Int) := by
  have hreg := regexParse_canonical
  cases neg with
  | true =>
    have hL : (if true = true then ['-'] else []) ++ yds ++ ['-'] ++ [m1, m2] ++ ['-'] ++ [d1, d2] =
        '-' :: (yds ++ '-' :: m1 :: m2 :: '-' :: d1 :: d2 :: []) := by simp
    rw [hL]
    have hws : ∀ c ∈ '-' :: (yds ++ '-' :: m1 :: m2 :: '-' :: d1 :: d2 :: []),
        c.isWhitespace = false := by
      intro c hc
      simp only [List.mem_cons, List.mem_append] at hc
      rcases hc with rfl | h | h
      · decide
      · exact digit_not_ws c (hyd c h)
      · rcases h with rfl | rfl | rfl | rfl | rfl | rfl | h
        · decide
        · exact digit_not_ws _ hm1
        · exact digit_not_ws _ hm2
        · decide
        · exact digit_not_ws _ hd1
        · exact digit_not_ws _ hd2
        · cases h
    have hsign : parseSign ('-' :: (yds ++ '-' :: m1 :: m2 :: '-' :: d1 :: d2 :: [])) =
        (-1, yds ++ '-' :: m1 :: m2 :: '-' :: d1 :: d2 :: []) := by
      simp [parseSign]
    unfold fromiso
    rw [trim_id _ hws]
    rw [if_neg (by simp), hsign]
    exact hreg (-1) yds m1 m2 d1 d2 hy1 hy5 hyd hm1 hm2 hd1 hd2
  | false =>
    obtain ⟨c0, yt, rfl⟩ : ∃ c0 yt, yds = c0 :: yt := by
      cases yds with
      | nil => simp at hy1
      | cons a t => exact ⟨a, t, rfl⟩
    have hc0 : c0.isDigit = true := hyd c0 (by simp)
    have hL : (if false = true then ['-'] else []) ++ (c0 :: yt) ++ ['-'] ++ [m1, m2] ++ ['-'] ++ [d1, d2] =
        (c0 :: yt) ++ '-' :: m1 :: m2 :: '-' :: d1 :: d2 :: [] := by simp
    rw [hL]
    have hws : ∀ c ∈ (c0 :: yt) ++ '-' :: m1 :: m2 :: '-' :: d1 :: d2 :: [],
        c.isWhitespace = false := by
      intro c hc
      simp only [List.cons_append, List.mem_cons, List.mem_append] at hc
      rcases hc with rfl | h | h
      · exact digit_not_ws _ hc0
      · exact digit_not_ws c (hyd c (by simp [h]))
      · rcases h with rfl | rfl | rfl | rfl | rfl | rfl | h
        · decide
        · exact digit_not_ws _ hm1
        · exact digit_not_ws _ hm2
        · decide
        · exact digit_not_ws _ hd1
        · exact digit_not_ws _ hd2
        · cases h
    have hsign : parseSign ((c0 :: yt) ++ '-' :: m1 :: m2 :: '-' :: d1 :: d2 :: []) =
        (1, (c0 :: yt) ++ '-' :: m1 :: m2 :: '-' :: d1 :: d2 :: []) := by
      simp only [parseSign, List.cons_append, List.head?_cons, Option.some.injEq]
      rw [if_neg (digit_ne_plus c0 hc0), if_neg (digit_ne_minus c0 hc0)]
    unfold fromiso
    rw [trim_id _ hws]
    rw [if_neg (by simp), hsign]
    rw [show ((1 : Int), (c0 :: yt) ++ '-' :: m1 :: m2 :: '-' :: d1 :: d2 :: []).1 = 1 from rfl]
    exact hreg 1 (c0 :: yt) m1 m2 d1 d2 hy1 hy5 hyd hm1 hm2 hd1 hd2

theorem greg_getD_le : ∀ i : Nat, GREGORIAN_MONTH_LENGTHS.getD i 0 ≤ 31 := by
  intro i
  by_cases h : i < 12
  · interval_cases i <;> decide
  · rw [List.getD_eq_getElem?_getD, List.getElem?_eq_none]
    · norm_num
    · simp only [GREGORIAN_MONTH_LENGTHS, List.length_cons, List.length_nil]
      omega

theorem gameDateMaxDay_le (y m : Int) : gameDateMaxDay y m ≤ 31 := by
  unfold gameDateMaxDay
  dsimp only
  split_ifs
  · norm_num
  · exact greg_getD_le _

/-- **C10 (confirmed)**: formatting then parsing is the identity on
constructible dates with `|year| ≤ 99999`:
`GameDate.fromiso(d.to_iso()) == d`. -/
theorem C10_iso_roundtrip (g : GameDate) (hv : ValidGameDate g) (hy : g.year.natAbs ≤ 99999) :
    fromiso (GameDate.to_iso g) = some g := by
  obtain ⟨hm1, hm2, hd1, hd2⟩ := hv
  have hmle : g.month.toNat ≤ 99 := by omega
  have hdle : g.day.toNat ≤ 99 := by
    have h31 := gameDateMaxDay_le g.year g.month
    omega
  obtain ⟨a, b, hab, had, hbd, hvab⟩ := pad2_two g.month.toNat hmle
  obtain ⟨e, f, hef, hed, hfd, hvef⟩ := pad2_two g.day.toNat hdle
  have hpd : ∀ c ∈ (if g.year.natAbs ≤ 9999 then padZeros 4 (natStr g.year.natAbs)
      else natStr g.year.natAbs), c.isDigit = true := by
    split_ifs
    · exact padZeros_digits _ _ (natStr_digits _)
    · exact natStr_digits _
  have hplen1 : 1 ≤ (if g.year.natAbs ≤ 9999 then padZeros 4 (natStr g.year.natAbs)
      else natStr g.year.natAbs).length := by
    split_ifs
    · rw [padZeros_length]
      have := natStr_length_pos g.year.natAbs
      omega
    · exact natStr_length_pos _
  have hplen5 : (if g.year.natAbs ≤ 9999 then padZeros 4 (natStr g.year.natAbs)
      else natStr g.year.natAbs).length ≤ 5 := by
    split_ifs with hc
    · rw [padZeros_length]
      have h4 : (natStr g.year.natAbs).length ≤ 4 :=
        natStr_length_le _ 4 (by norm_num) (by norm_num; omega)
      omega
    · exact natStr_length_le _ 5 (by norm_num) (by norm_num; omega)
  have hpval : digitsVal (if g.year.natAbs ≤ 9999 then padZeros 4 (natStr g.year.natAbs)
      else natStr g.year.natAbs) = g.year.natAbs := by
    split_ifs
    · rw [padZeros_val, natStr_val]
    · exact natStr_val _
  have hmv : ((g.month.toNat : Nat) : Int) = g.month := by omega
  have hdv : ((g.day.toNat : Nat) : Int) = g.day := by omega
  have hmk : mkGameDate g.year g.month g.day = some g := by
    unfold mkGameDate
    rw [if_pos ⟨hm1, hm2, hd1, hd2⟩]
  by_cases hneg : g.year < 0
  · have hiso : GameDate.to_iso g =
        (if true then ['-'] else []) ++
          (if g.year.natAbs ≤ 9999 then padZeros 4 (natStr g.year.natAbs)
            else natStr g.year.natAbs) ++ ['-'] ++ [a, b] ++ ['-'] ++ [e, f] := by
      unfold GameDate.to_iso
      rw [hab, hef, if_pos hneg]
      simp
    rw [hiso, fromiso_canonical true _ a b e f hplen1 hplen5 hpd had hbd hed hfd,
      hpval, hvab, hvef, hmv, hdv]
    have hyv : (if true then (-1 : Int) else 1) * (g.year.natAbs : Int) = g.year := by
      have hone : (if true then (-1 : Int) else 1) = -1 := rfl
      rw [hone]
      omega
    rw [hyv, hmk]
  · have hiso : GameDate.to_iso g =
        (if false then ['-'] else []) ++
          (if g.year.natAbs ≤ 9999 then padZeros 4 (natStr g.year.natAbs)
            else natStr g.year.natAbs) ++ ['-'] ++ [a, b] ++ ['-'] ++ [e, f] := by
      unfold GameDate.to_iso
      rw [hab, hef, if_neg hneg]
      simp
    rw [hiso, fromiso_canonical false _ a b e f hplen1 hplen5 hpd had hbd hed hfd,
      hpval, hvab, hvef, hmv, hdv]
    have hyv : (if false then (-1 : Int) else 1) * (g.year.natAbs : Int) = g.year := by
      have hone : (if false then (-1 : Int) else 1) = 1 := rfl
      rw [hone]
      omega
    rw [hyv, hmk]

/-- Witness for `C10_iso_roundtrip` at the negative wide year −12345. -/
theorem C10_iso_roundtrip_witness :
    ValidGameDate ⟨-12345, 6, 7⟩ ∧ ((-12345 : Int)).natAbs ≤ 99999 ∧
    fromiso (GameDate.to_iso ⟨-12345, 6, 7⟩) = some ⟨-12345, 6, 7⟩ :=
  ⟨by decide, by decide, C10_iso_roundtrip ⟨-12345, 6, 7⟩ (by decide) (by decide)⟩
